import Mathlib

/-!
Verification model of `BaileysMessageProcessor`
(`src/api/integrations/channel/whatsapp/baileysMessage.processor.ts`).

The processor is an RxJS pipeline mounted over a `Subject`:

  messageSubject
    |> bufferTime(batchTimeoutMs)
    |> filter(batch => batch.length > 0)
    |> mergeMap(batch =>
         from(batch) |> mergeMap(group =>
            from(onMessageReceive(group.payload, group.settings))
              |> timeout(timeoutMs)
              |> retryWhen(errors => errors |> tap(log) |> delay(1000)
                                            |> take(3) |> finalize(logError))
              |> catchError(err => of(null)),
            maxConcurrency))
    |> catchError(err => EMPTY)

We embed each stage as an executable Lean definition and prove the spec's
claims about batching, concurrency, timeout, retry, fault isolation and
lifecycle against them.
-/

namespace BaileysProc

/-! ## Configuration

`MountProps` is the argument record of `mount` (the handler function itself is
kept out of the record; it is a collaborator, not data).  The source declares
exactly three optional numeric fields, with the defaults written in `mount`'s
destructuring pattern:

  mount({ onMessageReceive, maxConcurrency = 5, timeoutMs = 30000,
          batchTimeoutMs = 1000 }: MountProps)

The retry delay and the retry count are NOT fields: they occur only as the
literals `delay(1000)` and `take(3)` inside `mount`'s `retryWhen` notifier. -/

structure MountProps where
  maxConcurrency : Nat := 5
  timeoutMs : Nat := 30000
  batchTimeoutMs : Nat := 1000
  deriving Repr, DecidableEq

/-- The fixed retry delay used by the mounted pipeline: the literal `1000`
in `delay(1000)` inside `mount`'s `retryWhen` notifier.  It does not depend
on the mount configuration. -/
def retryDelayUsed (_ : MountProps) : Nat := 1000

/-- The fixed number of retry notifications the pipeline forwards: the
literal `3` in `take(3)` inside `mount`'s `retryWhen` notifier.  It does not
depend on the mount configuration. -/
def retryTakeUsed (_ : MountProps) : Nat := 3

/-! ## Per-task semantics

One `ProcessingTask` processes one message group.  The inner `mergeMap`
projection runs

  from(onMessageReceive({messages, type, requestId}, settings))
    .pipe(timeout(timeoutMs), retryWhen(...), catchError(...))

Crucially, `onMessageReceive(...)` is called ONCE, when the projection runs:
`from(promise)` wraps the resulting promise object.  A `retryWhen`
resubscription re-subscribes `from(promise).pipe(timeout(...))`: it re-arms
the timeout timer and re-awaits the SAME promise; it never calls the handler
again.  A promise is modelled by how (and when, in ms after the single
invocation at local time 0) it settles. -/

/-- How the single handler promise settles: fulfilled at time `s`, rejected
at time `s`, or never settles. -/
inductive Settle where
  | succ (s : Nat)
  | fail (s : Nat)
  | never
  deriving Repr, DecidableEq

/-- The kind of error a subscription delivers: a promise rejection, or a
`TimeoutError` from the `timeout(timeoutMs)` operator. -/
inductive EKind where
  | rejected
  | timedOut
  deriving Repr, DecidableEq

/-- What one subscription (begun at absolute time `b`) of
`from(promise).pipe(timeout(deadline))` delivers, and when. -/
inductive SubEvent where
  | val (t : Nat)
  | err (t : Nat) (k : EKind)
  deriving Repr, DecidableEq

/-- Outcome of one subscription of `from(promise).pipe(timeout(deadline))`
begun at absolute time `b`.  A promise already settled at subscription time
delivers immediately (at `b`); one settling within the deadline delivers at
its settle time; otherwise the `timeout` operator errors at `b + deadline`. -/
def subOutcome (deadline : Nat) (st : Settle) (b : Nat) : SubEvent :=
  match st with
  | .succ s => if s ≤ b + deadline then .val (max s b) else .err (b + deadline) .timedOut
  | .fail s => if s ≤ b + deadline then .err (max s b) .rejected else .err (b + deadline) .timedOut
  | .never => .err (b + deadline) .timedOut

/-- Terminal outcome of the retried task observable (the output of
`retryWhen`).  `retryWhen`'s output errors only if its notifier errors; this
notifier (`tap`, `delay`, `take`, `finalize`) never errors, so the loop below
only ever produces `succeeded` (a value was delivered) or `exhaustedEmpty`
(the notifier's `take` completed, completing the output without a value). -/
inductive PreResult where
  | succeeded (t : Nat)
  | exhaustedEmpty (t : Nat)
  | errored (t : Nat)
  deriving Repr, DecidableEq

/-- The retry loop of `retryWhen(errors => errors.pipe(tap, delay(retryDelay),
take(remaining), finalize))`, subscribed at absolute time `b` with `remaining`
notifier slots left.  Each error is forwarded after `retryDelay` ms and causes
a resubscription; when the notifier's `take` has forwarded its last value it
completes, which completes the output at the same instant (the resubscription
made by that last value is torn down immediately and delivers nothing).
Returns (subscription start times, error events, terminal outcome). -/
def runLoop (deadline retryDelay : Nat) (st : Settle) (b : Nat) :
    Nat → List Nat × List (Nat × EKind) × PreResult
  | 0 => ([b], [], .exhaustedEmpty b)
  | r + 1 =>
    match subOutcome deadline st b with
    | .val t => ([b], [], .succeeded t)
    | .err t k =>
      let rest := runLoop deadline retryDelay st (t + retryDelay) r
      (b :: rest.1, (t, k) :: rest.2.1, rest.2.2)

/-- After `retryWhen`, the `catchError(err => of(null))` stage maps an error
termination to the value `null`; value and empty completions pass through.
With this notifier the `errored` branch is unreachable (a second, redundant
barrier in the source). -/
inductive TaskResult where
  | value (t : Nat)
  | nullValue (t : Nat)
  | empty (t : Nat)
  deriving Repr, DecidableEq

def catchStage : PreResult → TaskResult
  | .succeeded t => .value t
  | .exhaustedEmpty t => .empty t
  | .errored t => .nullValue t

/-- Full trace of one ProcessingTask. -/
structure TaskTrace where
  /-- Number of calls to `onMessageReceive` for this group: the projection
  calls it exactly once; resubscriptions reuse the same promise. -/
  invocations : Nat
  /-- Start times of the subscriptions of `from(promise).pipe(timeout(..))`. -/
  subTimes : List Nat
  /-- Errors observed by the `retryWhen` notifier, with their kinds. -/
  errors : List (Nat × EKind)
  /-- Number of `finalize` error-log records ("Failed to process message
  batch after 3 retries").  `finalize` runs exactly once, on teardown of the
  notifier chain — on exhaustion and also on success. -/
  failureLogRecords : Nat
  /-- Terminal outcome handed to the outer merge. -/
  result : TaskResult
  deriving Repr, DecidableEq

/-- Trace of one task under deadline/retry parameters.  `invocations := 1`
records that `onMessageReceive` runs once, when `from(...)` is built. -/
def runTaskGen (deadline retryDelay retryTake : Nat) (st : Settle) : TaskTrace :=
  let r := runLoop deadline retryDelay st 0 retryTake
  { invocations := 1
    subTimes := r.1
    errors := r.2.1
    failureLogRecords := 1
    result := catchStage r.2.2 }

/-- The task pipeline exactly as `mount` builds it: deadline from the
config, retry delay and retry count from the literals `delay(1000)` and
`take(3)`. -/
def runTask (p : MountProps) (st : Settle) : TaskTrace :=
  runTaskGen p.timeoutMs (retryDelayUsed p) (retryTakeUsed p) st

/-- Whether a task trace ended in the exhaustion path (the `retryWhen`
notifier's `take` completed without a value ever being delivered). -/
def TaskTrace.isExhausted (tr : TaskTrace) : Bool :=
  match tr.result with
  | .empty _ => true
  | _ => false

/-! ## Batch execution and fault isolation

The outer stage is

  mergeMap(batch => from(batch).pipe(mergeMap(task, maxConcurrency)))

In RxJS, if any inner observable of a merge terminates with an error, the
whole merged observable errors and every sibling subscription is cancelled.
`mergeBatch` embeds that semantics: it scans the per-group task observables
for an error termination; only if none exists do all groups deliver their own
terminal results.  The source's tasks can never take the error branch
(`runLoop` ends in `succeeded` or `exhaustedEmpty`, and `catchStage` turns
even a hypothetical error into the value `null`), which is exactly the
fault-isolation property. -/

/-- `true` when a task observable hands an error termination to the merge.
After `catchStage` every `TaskResult` constructor is a completion, so this
is `false` for every trace the source can produce; the definition spells the
check out so that the merge semantics below is not vacuous by type. -/
def terminatesStream : TaskResult → Bool
  | .value _ => false
  | .nullValue _ => false
  | .empty _ => false

/-- Merge a batch of groups: RxJS `mergeMap` aborts the whole merge if some
inner errors, else delivers every group's own terminal result. -/
def mergeBatch (p : MountProps) (sts : List Settle) : Option (List TaskResult) :=
  let results := sts.map (fun st => (runTask p st).result)
  if results.any terminatesStream then none else some results

/-! ## Concurrency model of the executor

The inner `mergeMap(task, maxConcurrency)` subscribes at most
`maxConcurrency` task observables of its batch at a time: the first
`maxConcurrency` start when the batch arrives, and each completion admits
the next task.  The outer `mergeMap` has NO concurrency argument, so
distinct batches' inner merges run side by side, each with its own budget.

We model the spec's instrumented-handler scenario: every handler invocation
of a batch runs for exactly `d` ms.  Then the `i`-th task (0-based) of a
batch arriving at time `a` occupies its slot during
`[a + (i / c) * d, a + (i / c) * d + d)`. -/

/-- Start time of task `i` of a batch arriving at `a`, inner concurrency
`c`, uniform handler duration `d`. -/
def taskStart (c a d i : Nat) : Nat := a + i / c * d

/-- End time of that task's slot occupancy. -/
def taskEnd (c a d i : Nat) : Nat := taskStart c a d i + d

/-- Number of handler invocations of one `n`-task batch executing at
time `t`. -/
def runningInBatch (c a d n t : Nat) : Nat :=
  ((Finset.range n).filter (fun i => taskStart c a d i ≤ t ∧ t < taskEnd c a d i)).card

/-- `bufferTime(T)` emits the batch of window `k` at the window's closing
boundary `(k + 1) * T`. -/
def batchArrival (T k : Nat) : Nat := (k + 1) * T

/-- Total number of handler invocations executing at time `t` across a
pipeline whose window `k` produced a batch of `sizes[k]` groups, with
inner concurrency `c`, uniform duration `d` and window `T`.  The outer
`mergeMap` is unbounded, so the totals of simultaneously-active batches
add up. -/
def runningTotal (c d T : Nat) (sizes : List Nat) (t : Nat) : Nat :=
  (sizes.enum.map (fun ka => runningInBatch c (batchArrival T ka.1) d ka.2 t)).sum

/-! ## Batcher

`bufferTime(T)` partitions absolute time (measured from subscription) into
consecutive fixed windows `[k*T, (k+1)*T)`; the timer ticks every `T` ms
regardless of arrivals.  `filter(batch => batch.length > 0)` then drops the
empty windows.  A submission is a (time, payload) pair; a submission list is
in submission order. -/

/-- The window a submission at time `t` falls into. -/
def windowOf (T t : Nat) : Nat := t / T

/-- The groups of window `k`, in submission order. -/
def windowContents (T : Nat) (subs : List (Nat × Nat)) (k : Nat) : List Nat :=
  (subs.filter (fun s => windowOf T s.1 = k)).map Prod.snd

/-- The last window index any submission falls into. -/
def lastWindow (T : Nat) (subs : List (Nat × Nat)) : Nat :=
  (subs.map (fun s => windowOf T s.1)).foldr max 0

/-- The batches the batcher emits to the executor: one per window, empty
windows removed by `filter(batch => batch.length > 0)`. -/
def emittedBatches (T : Nat) (subs : List (Nat × Nat)) : List (List Nat) :=
  ((List.range (lastWindow T subs + 1)).map (windowContents T subs)).filter
    (fun b => 0 < b.length)

/-! ## Lifecycle state machine

`BaileysMessageProcessor` owns a `Subject` (`messageSubject`) and an optional
`Subscription`.  Events, from the source:

  * `mount`        — subscribes the pipeline to the subject;
  * `submit p`     — `processMessage`: calls `messageSubject.next(...)`;
    a `Subject` delivers only to currently-active subscribers, ignores
    `next` entirely after `complete()`, and never buffers;
  * `flush`        — a `bufferTime` timer tick of the active subscription:
    moves the window buffer out, emitting it as a batch if non-empty;
  * `fatal`        — an error of the batching/scheduling machinery reaches
    the stream-level `catchError(err => EMPTY)`: the subscription completes
    and its operator state (the window buffer) is torn down;
  * `destroy`      — `onDestroy()`: unsubscribes and `complete()`s the
    subject.

`processMessage` returns `void` in every state and throws nothing: the
submission outcome is invisible to the caller. -/

inductive PEvent where
  | mount
  | submit (p : Nat)
  | flush
  | fatal
  | destroy
  deriving Repr, DecidableEq

/-- Errors the spec's interface vocabulary allows `submit` to report.
Modelled from the spec: the source's `processMessage` has no error channel;
this type exists to state what the claim expects. -/
inductive PipelineError where
  | pipelineClosed
  deriving Repr, DecidableEq

structure ProcState where
  /-- An active pipeline subscription exists. -/
  subscribed : Bool
  /-- `messageSubject.complete()` has been called. -/
  stopped : Bool
  /-- Contents of the current `bufferTime` window of the active
  subscription. -/
  buffer : List Nat
  /-- Batches emitted to the executor so far. -/
  batches : List (List Nat)
  deriving Repr, DecidableEq

def initProc : ProcState := ⟨false, false, [], []⟩

/-- What `processMessage` reports to its caller: nothing, in every state.
The method body is `this.messageSubject.next({...})` and returns `void`;
`Subject.next` after `complete()` silently ignores the value. -/
def submitReport (_ : ProcState) (_ : Nat) : Option PipelineError := none

def step (st : ProcState) : PEvent → ProcState
  | .mount => { st with subscribed := true }
  | .submit p =>
    if st.subscribed && !st.stopped then { st with buffer := st.buffer ++ [p] } else st
  | .flush =>
    if st.subscribed then
      { st with
        buffer := []
        batches := st.batches ++ (if st.buffer.isEmpty then [] else [st.buffer]) }
    else st
  | .fatal =>
    if st.subscribed then { st with subscribed := false, buffer := [] } else st
  | .destroy => { st with subscribed := false, stopped := true, buffer := [] }

def runEvents (st : ProcState) : List PEvent → ProcState :=
  List.foldl step st

/-! ## Helper lemmas -/

/-- No `TaskResult` is an error termination: `retryWhen` completes (it never
errors with this notifier) and `catchError` maps the error channel to a
value. -/
theorem terminatesStream_false (r : TaskResult) : terminatesStream r = false := by
  cases r <;> rfl

/-- Once the subject is stopped and the window buffer is empty, no event can
ever grow the batch list (or refill the buffer): submissions are ignored by
the stopped subject, and a flush of an empty buffer emits nothing. -/
theorem runEvents_frozen_of_stopped (evs : List PEvent) :
    ∀ st : ProcState, st.stopped = true → st.buffer = [] →
      (runEvents st evs).batches = st.batches ∧
        (runEvents st evs).stopped = true ∧ (runEvents st evs).buffer = [] := by
  induction evs with
  | nil => intro st hs hb; exact ⟨rfl, hs, hb⟩
  | cons e evs ih =>
    intro st hs hb
    have hstep : (step st e).stopped = true ∧ (step st e).buffer = [] ∧
        (step st e).batches = st.batches := by
      cases e with
      | mount => exact ⟨hs, hb, rfl⟩
      | submit p => simp [step, hs, hb]
      | flush => by_cases h : st.subscribed <;> simp [step, h, hb, hs]
      | fatal => by_cases h : st.subscribed <;> simp [step, h, hb, hs]
      | destroy => simp [step]
    have := ih (step st e) hstep.1 hstep.2.1
    exact ⟨hstep.2.2 ▸ this.1, this.2⟩

/-- An unsubscribed pipeline stays unsubscribed and emits no further batch
so long as no (external) `mount` occurs: nothing inside the processor
re-subscribes. -/
theorem runEvents_dead_of_unsubscribed (evs : List PEvent) :
    ∀ st : ProcState, st.subscribed = false → PEvent.mount ∉ evs →
      (runEvents st evs).batches = st.batches ∧
        (runEvents st evs).subscribed = false := by
  induction evs with
  | nil => intro st hs _; exact ⟨rfl, hs⟩
  | cons e evs ih =>
    intro st hs hm
    have hm1 : e ≠ PEvent.mount := fun h => hm (h ▸ List.mem_cons_self e evs)
    have hm2 : PEvent.mount ∉ evs := fun h => hm (List.mem_cons_of_mem e h)
    have hstep : (step st e).subscribed = false ∧ (step st e).batches = st.batches := by
      cases e with
      | mount => exact absurd rfl hm1
      | submit p => simp [step, hs]
      | flush => simp [step, hs]
      | fatal => simp [step, hs]
      | destroy => simp [step, hs]
    have := ih (step st e) hstep.1 hm2
    exact ⟨hstep.2 ▸ this.1, this.2⟩

/-- Every member of a Nat list is bounded by its `foldr max 0`. -/
theorem mem_le_foldr_max (L : List Nat) (x : Nat) (hx : x ∈ L) :
    x ≤ L.foldr max 0 := by
  induction L with
  | nil => cases hx
  | cons a L ih =>
    have hfold : (a :: L).foldr max 0 = max a (L.foldr max 0) := rfl
    rcases List.mem_cons.mp hx with h | h
    · rw [hfold, h]; exact le_max_left _ _
    · rw [hfold]; exact le_trans (ih h) (le_max_right _ _)

/-- `foldr max 0` of a non-empty constant list is the constant. -/
theorem foldr_max_const (L : List Nat) (k : Nat) (hne : L ≠ [])
    (h : ∀ x ∈ L, x = k) : L.foldr max 0 = k := by
  induction L with
  | nil => exact absurd rfl hne
  | cons a L ih =>
    have ha : a = k := h a (List.mem_cons_self a L)
    cases L with
    | nil => simp [ha]
    | cons b L =>
      have : (b :: L).foldr max 0 = k :=
        ih (by simp) (fun x hx => h x (List.mem_cons_of_mem a hx))
      simp [ha, this]

/-- Within one batch the inner `mergeMap(task, c)` never runs more than `c`
handler invocations at once: every task running at time `t` has task index
in the `c`-wide block `[q*c, (q+1)*c)` where `q = (t - a) / d`. -/
theorem runningInBatch_le (c a d n t : Nat) (hc : 0 < c) :
    runningInBatch c a d n t ≤ c := by
  rcases Nat.eq_zero_or_pos d with hd | hd
  · have : ((Finset.range n).filter
        (fun i => taskStart c a d i ≤ t ∧ t < taskEnd c a d i)) = ∅ := by
      apply Finset.filter_eq_empty_iff.mpr
      intro i _ hcon
      have h1 : taskStart c a d i ≤ t := hcon.1
      have h2 : t < taskStart c a d i + d := hcon.2
      omega
    simp [runningInBatch, this, Nat.zero_le]
  · by_cases ht : a ≤ t
    · have hsub : ((Finset.range n).filter
          (fun i => taskStart c a d i ≤ t ∧ t < taskEnd c a d i)) ⊆
          Finset.Ico ((t - a) / d * c) (((t - a) / d + 1) * c) := by
        intro i hi
        have hcon := (Finset.mem_filter.mp hi).2
        have h1 : a + i / c * d ≤ t := hcon.1
        have h2 : t < a + i / c * d + d := hcon.2
        have hlo : i / c * d ≤ t - a := by omega
        have hhi : t - a < (i / c + 1) * d := by
          have : (i / c + 1) * d = i / c * d + d := by ring
          omega
        have hq : (t - a) / d = i / c := by
          have := Nat.div_eq_of_lt_le hlo hhi
          exact this
        rw [Finset.mem_Ico, hq]
        constructor
        · exact Nat.div_mul_le_self i c
        · exact (Nat.div_lt_iff_lt_mul hc).mp (Nat.lt_succ_self (i / c))
      calc runningInBatch c a d n t
          ≤ (Finset.Ico ((t - a) / d * c) (((t - a) / d + 1) * c)).card :=
            Finset.card_le_card hsub
        _ = ((t - a) / d + 1) * c - (t - a) / d * c := Nat.card_Ico _ _
        _ = c := by
            have : ((t - a) / d + 1) * c = (t - a) / d * c + c := by ring
            omega
    · have : ((Finset.range n).filter
          (fun i => taskStart c a d i ≤ t ∧ t < taskEnd c a d i)) = ∅ := by
        apply Finset.filter_eq_empty_iff.mpr
        intro i _ hcon
        have h1 : a + i / c * d ≤ t := hcon.1
        omega
      simp [runningInBatch, this, Nat.zero_le]

/-! ## Claim theorems -/

/-- C1 (counterexample): with `maxConcurrency = 1`, two single-task batches
(window 0's batch arriving at 1000, window 1's at 2000, uniform handler
duration 3000 ms) both have their handler executing at t = 2500: the total
of simultaneously-executing handler invocations is 2, which exceeds the
ceiling 1.  The outer `mergeMap` has no concurrency argument, so the ceiling
is per batch, not pipeline-wide. -/
theorem c1_counterexample :
    runningTotal 1 3000 1000 [1, 1] 2500 = 2 ∧
    runningInBatch 1 (batchArrival 1000 0) 3000 1 2500 = 1 ∧
    runningInBatch 1 (batchArrival 1000 1) 3000 1 2500 = 1 ∧
    ¬ runningTotal 1 3000 1000 [1, 1] 2500 ≤ 1 := by decide

/-- C1 (amended): the concurrency ceiling is enforced per batch — within any
single batch at most `maxConcurrency` handler invocations execute
simultaneously — and the pipeline-wide total is bounded only by
`maxConcurrency` times the number of batches whose tasks are eligible. -/
theorem c1_amended (c a d n t T : Nat) (sizes : List Nat) (hc : 0 < c) :
    runningInBatch c a d n t ≤ c ∧
    runningTotal c d T sizes t ≤ c * sizes.length := by
  constructor
  · exact runningInBatch_le c a d n t hc
  · have hb : ∀ x ∈ sizes.enum.map
        (fun ka => runningInBatch c (batchArrival T ka.1) d ka.2 t), x ≤ c := by
      intro x hx
      rcases List.mem_map.mp hx with ⟨ka, _, rfl⟩
      exact runningInBatch_le c (batchArrival T ka.1) d ka.2 t hc
    calc runningTotal c d T sizes t
        ≤ (sizes.enum.map
            (fun ka => runningInBatch c (batchArrival T ka.1) d ka.2 t)).length • c :=
          List.sum_le_card_nsmul _ c hb
      _ = c * sizes.length := by
          simp [List.enum_length, smul_eq_mul, Nat.mul_comm]

/-- C1 (witness for the amended theorem): with `maxConcurrency = 5`, a
12-task batch arriving at 1000 with 100 ms handlers has exactly at most 5
running at t = 1050, and the two-batch pipeline total is within 5 * 2. -/
theorem c1_amended_witness :
    runningInBatch 5 1000 100 12 1050 ≤ 5 ∧
    runningTotal 5 100 1000 [2, 3] 1050 ≤ 5 * [2, 3].length :=
  c1_amended 5 1000 100 12 1050 1000 [2, 3] (by decide)

/-- C2 (code behaviour at the failing input): for a group whose handler
promise rejects immediately under the default configuration, the handler is
invoked exactly once — `from(onMessageReceive(...))` wraps one promise, and
each of the three `retryWhen` resubscriptions (at 1000, 2000, 3000 ms)
merely re-observes the same settled rejection — after which the task
completes empty at 3000 ms with exactly one exhaustion log record.  The
claim's re-invocation count of `maxRetryAttempts` never happens. -/
theorem c2_code_behavior :
    (runTask ⟨5, 30000, 1000⟩ (Settle.fail 0)).invocations = 1 ∧
    (runTask ⟨5, 30000, 1000⟩ (Settle.fail 0)).subTimes = [0, 1000, 2000, 3000] ∧
    (runTask ⟨5, 30000, 1000⟩ (Settle.fail 0)).errors =
      [(0, EKind.rejected), (1000, EKind.rejected), (2000, EKind.rejected)] ∧
    (runTask ⟨5, 30000, 1000⟩ (Settle.fail 0)).failureLogRecords = 1 ∧
    (runTask ⟨5, 30000, 1000⟩ (Settle.fail 0)).result = TaskResult.empty 3000 := by
  decide

/-- C3 (counterexample): destroy the mounted processor, then submit: the
call reports nothing at all to the caller (`processMessage` returns `void`;
`Subject.next` after `complete()` silently ignores the value) and leaves the
state untouched — it does not return or raise a `PipelineClosed` error. -/
theorem c3_counterexample :
    submitReport (runEvents initProc [PEvent.mount, PEvent.submit 1, PEvent.destroy]) 2
      = none ∧
    (submitReport (runEvents initProc [PEvent.mount, PEvent.submit 1, PEvent.destroy]) 2).isSome
      = false ∧
    step (runEvents initProc [PEvent.mount, PEvent.submit 1, PEvent.destroy]) (PEvent.submit 2)
      = runEvents initProc [PEvent.mount, PEvent.submit 1, PEvent.destroy] := by decide

/-- C3 (amended): after `destroy()` every subsequent submission is silently
swallowed — the caller receives no error and no signal, and the submission
is a no-op — and no new batch is ever processed afterwards; submissions
still sitting in the window buffer at destroy time are discarded, never
flushed. -/
theorem c3_amended (st : ProcState) (q : Nat) (evs : List PEvent) :
    submitReport (step st PEvent.destroy) q = none ∧
    step (step st PEvent.destroy) (PEvent.submit q) = step st PEvent.destroy ∧
    (step st PEvent.destroy).buffer = [] ∧
    (runEvents (step st PEvent.destroy) evs).batches = st.batches := by
  refine ⟨rfl, ?_, rfl, ?_⟩
  · simp [step]
  · have := runEvents_frozen_of_stopped evs (step st PEvent.destroy) rfl rfl
    simpa [step] using this.1

/-- C4: two groups in one batch, G1 with an arbitrary handler behaviour and
G2 whose handler fulfils within the deadline: the merged batch delivers
every group's own terminal result (no inner observable hands the merge an
error termination, so nothing is cancelled), and G2's result is its own
success — independent of G1. -/
theorem c4_theorem (p : MountProps) (st1 : Settle) (s : Nat) (h : s ≤ p.timeoutMs) :
    mergeBatch p [st1, Settle.succ s] =
      some [(runTask p st1).result, TaskResult.value s] ∧
    (runTask p (Settle.succ s)).result = TaskResult.value s := by
  have hg2 : (runTask p (Settle.succ s)).result = TaskResult.value s := by
    simp [runTask, runTaskGen, runLoop, subOutcome, retryDelayUsed, retryTakeUsed,
      catchStage, Nat.zero_add, h, Nat.max_eq_left (Nat.zero_le s)]
  refine ⟨?_, hg2⟩
  simp [mergeBatch, terminatesStream_false, hg2]

/-- C4 (witness): default configuration, G1 always failing, G2 succeeding
at 5 ms: both results are delivered and G2's is its success. -/
theorem c4_witness :
    mergeBatch ⟨5, 30000, 1000⟩ [Settle.fail 0, Settle.succ 5] =
      some [(runTask ⟨5, 30000, 1000⟩ (Settle.fail 0)).result, TaskResult.value 5] ∧
    (runTask ⟨5, 30000, 1000⟩ (Settle.succ 5)).result = TaskResult.value 5 :=
  c4_theorem ⟨5, 30000, 1000⟩ (Settle.fail 0) 5 (by decide)

/-- C5 (counterexample): submissions at 600 ms and 1400 ms have an
inter-arrival gap of 800 ms < `batchTimeoutMs` = 1000, yet `bufferTime`'s
fixed window boundary at 1000 ms splits them into two batches. -/
theorem c5_counterexample :
    1400 - 600 < 1000 ∧
    emittedBatches 1000 [(600, 1), (1400, 2)] = [[1], [2]] ∧
    (emittedBatches 1000 [(600, 1), (1400, 2)]).length = 2 := by decide

/-- C5 (amended): `bufferTime(batchTimeoutMs)` cuts fixed consecutive
windows measured from subscription.  All groups submitted within one window
appear in a single batch in submission order, and two submissions more than
`batchTimeoutMs` apart always land in distinct batches (at least two
batches); but submissions with all gaps below `batchTimeoutMs` may still be
split when they straddle a window boundary. -/
theorem c5_amended (T k : Nat) (subs : List (Nat × Nat)) (a b : Nat × Nat)
    (hT : 0 < T) :
    (subs ≠ [] → (∀ s ∈ subs, windowOf T s.1 = k) →
      emittedBatches T subs = [subs.map Prod.snd]) ∧
    (a ∈ subs → b ∈ subs → a.1 + T < b.1 →
      2 ≤ (emittedBatches T subs).length) := by
  constructor
  · intro hne hall
    have hlast : lastWindow T subs = k := by
      apply foldr_max_const
      · simpa using hne
      · intro x hx
        rcases List.mem_map.mp hx with ⟨s, hs, rfl⟩
        exact hall s hs
    have hk : windowContents T subs k = subs.map Prod.snd := by
      unfold windowContents
      rw [List.filter_eq_self.mpr]
      intro s hs
      simpa using hall s hs
    have hother : ∀ j ∈ List.range k, windowContents T subs j = [] := by
      intro j hj
      have hjk : j ≠ k := Nat.ne_of_lt (List.mem_range.mp hj)
      unfold windowContents
      rw [List.filter_eq_nil_iff.mpr]
      · rfl
      · intro s hs
        simp [hall s hs, hjk.symm]
    unfold emittedBatches
    rw [hlast, List.range_succ, List.map_append, List.filter_append]
    have h1 : ((List.range k).map (windowContents T subs)).filter
        (fun b => 0 < b.length) = [] := by
      rw [List.filter_eq_nil_iff]
      intro bb hbb
      rcases List.mem_map.mp hbb with ⟨j, hj, rfl⟩
      simp [hother j hj]
    have h2 : ([k].map (windowContents T subs)).filter (fun b => 0 < b.length)
        = [subs.map Prod.snd] := by
      have hpos : 0 < subs.length := List.length_pos.mpr hne
      simp [hk, hpos]
    rw [h1, h2, List.nil_append]
  · intro ha hb hgap
    have hlt : windowOf T a.1 < windowOf T b.1 := by
      have h1 : (a.1 + T) / T = a.1 / T + 1 := by
        simpa using Nat.add_div_right a.1 hT
      have h2 : (a.1 + T) / T ≤ b.1 / T :=
        Nat.div_le_div_right (Nat.le_of_lt hgap)
      unfold windowOf
      omega
    have hwa : windowOf T a.1 ∈ List.range (lastWindow T subs + 1) := by
      rw [List.mem_range]
      have := mem_le_foldr_max (subs.map (fun s => windowOf T s.1)) (windowOf T a.1)
        (List.mem_map_of_mem _ ha)
      unfold lastWindow
      omega
    have hwb : windowOf T b.1 ∈ List.range (lastWindow T subs + 1) := by
      rw [List.mem_range]
      have := mem_le_foldr_max (subs.map (fun s => windowOf T s.1)) (windowOf T b.1)
        (List.mem_map_of_mem _ hb)
      unfold lastWindow
      omega
    have hpa : 0 < (windowContents T subs (windowOf T a.1)).length := by
      apply List.length_pos.mpr
      apply List.ne_nil_of_mem
      exact List.mem_map_of_mem Prod.snd (List.mem_filter.mpr ⟨ha, by simp⟩)
    have hpb : 0 < (windowContents T subs (windowOf T b.1)).length := by
      apply List.length_pos.mpr
      apply List.ne_nil_of_mem
      exact List.mem_map_of_mem Prod.snd (List.mem_filter.mpr ⟨hb, by simp⟩)
    have hfil : 2 ≤ ((List.range (lastWindow T subs + 1)).filter
        (fun j => 0 < (windowContents T subs j).length)).length := by
      have hma : windowOf T a.1 ∈ (List.range (lastWindow T subs + 1)).filter
          (fun j => 0 < (windowContents T subs j).length) :=
        List.mem_filter.mpr ⟨hwa, by simpa using hpa⟩
      have hmb : windowOf T b.1 ∈ (List.range (lastWindow T subs + 1)).filter
          (fun j => 0 < (windowContents T subs j).length) :=
        List.mem_filter.mpr ⟨hwb, by simpa using hpb⟩
      calc (2 : Nat)
          = ({windowOf T a.1, windowOf T b.1} : Finset Nat).card :=
            (Finset.card_pair (Nat.ne_of_lt hlt)).symm
        _ ≤ ((List.range (lastWindow T subs + 1)).filter
              (fun j => 0 < (windowContents T subs j).length)).toFinset.card := by
            apply Finset.card_le_card
            intro x hx
            rcases Finset.mem_insert.mp hx with h | h
            · exact List.mem_toFinset.mpr (h ▸ hma)
            · exact List.mem_toFinset.mpr ((Finset.mem_singleton.mp h) ▸ hmb)
        _ ≤ _ := List.toFinset_card_le _
    have hgoal : (emittedBatches T subs).length =
        ((List.range (lastWindow T subs + 1)).filter
          (fun j => 0 < (windowContents T subs j).length)).length := by
      unfold emittedBatches
      rw [← List.countP_eq_length_filter, ← List.countP_eq_length_filter,
        List.countP_map]
      rfl
    rw [hgoal]
    exact hfil

/-- C5 (witness for the amended theorem): submissions at 0 and 1200 are more
than 1000 ms apart and land in two batches; the same-window implication is
vacuous at this input. -/
theorem c5_amended_witness :
    (([(0, 1), (1200, 2)] : List (Nat × Nat)) ≠ [] →
      (∀ s ∈ ([(0, 1), (1200, 2)] : List (Nat × Nat)), windowOf 1000 s.1 = 0) →
      emittedBatches 1000 [(0, 1), (1200, 2)] =
        [([(0, 1), (1200, 2)] : List (Nat × Nat)).map Prod.snd]) ∧
    (((0 : Nat), (1 : Nat)) ∈ ([(0, 1), (1200, 2)] : List (Nat × Nat)) →
      ((1200 : Nat), (2 : Nat)) ∈ ([(0, 1), (1200, 2)] : List (Nat × Nat)) →
      (0 : Nat) + 1000 < 1200 →
      2 ≤ (emittedBatches 1000 [(0, 1), (1200, 2)]).length) :=
  c5_amended 1000 0 [(0, 1), (1200, 2)] (0, 1) (1200, 2) (by decide)

/-- C6: a handler that never settles is timed out by `timeout(timeoutMs)` at
each subscription's deadline; each `TimeoutError` flows into the very same
`retryWhen` notifier as a rejection would, consuming one of the three
notifier slots and triggering the same fixed 1000 ms delay before
resubscription, and the task ends in the same exhaustion outcome as an
always-failing handler. -/
theorem c6_theorem (p : MountProps) :
    (runTask p Settle.never).errors =
      [(p.timeoutMs, EKind.timedOut), (2 * p.timeoutMs + 1000, EKind.timedOut),
        (3 * p.timeoutMs + 2000, EKind.timedOut)] ∧
    (runTask p Settle.never).subTimes =
      [0, p.timeoutMs + 1000, 2 * p.timeoutMs + 2000, 3 * p.timeoutMs + 3000] ∧
    (runTask p Settle.never).result = TaskResult.empty (3 * p.timeoutMs + 3000) ∧
    (runTask p Settle.never).errors.length
      = (runTask p (Settle.fail 0)).errors.length ∧
    TaskTrace.isExhausted (runTask p Settle.never) = true ∧
    TaskTrace.isExhausted (runTask p (Settle.fail 0)) = true := by
  refine ⟨?_, ?_, ?_, ?_, ?_, ?_⟩ <;>
    simp [runTask, runTaskGen, runLoop, subOutcome, retryDelayUsed, retryTakeUsed,
      catchStage, TaskTrace.isExhausted] <;> omega

/-- C7 (counterexample): a caller supplying non-default values for every
field of `MountProps` still gets retry delay 1000 and retry count 3 — the
resubscriptions of an always-failing task stay 1000 ms apart — because
`maxRetryAttempts` and `retryDelayMs` are not configuration parameters at
all: they are the literals `take(3)` and `delay(1000)` in `mount`. -/
theorem c7_counterexample :
    retryDelayUsed ⟨9, 9, 9⟩ = 1000 ∧ retryTakeUsed ⟨9, 9, 9⟩ = 3 ∧
    (runTask ⟨9, 9, 9⟩ (Settle.fail 0)).subTimes = [0, 1000, 2000, 3000] ∧
    (runTask ⟨9, 9, 9⟩ (Settle.fail 0)).errors.length = 3 := by decide

/-- C7 (amended): the configuration surface of `mount` consists of exactly
three optional parameters with defaults `maxConcurrency = 5`,
`timeoutMs = 30000`, `batchTimeoutMs = 1000` (a `MountProps` value carries
no other data), and the per-task pipeline is built from `timeoutMs` together
with the fixed, non-configurable retry delay 1000 ms and retry count 3. -/
theorem c7_amended (p : MountProps) (st : Settle) :
    ({} : MountProps) = ⟨5, 30000, 1000⟩ ∧
    p = ⟨p.maxConcurrency, p.timeoutMs, p.batchTimeoutMs⟩ ∧
    retryDelayUsed p = 1000 ∧ retryTakeUsed p = 3 ∧
    runTask p st = runTaskGen p.timeoutMs 1000 3 st := by
  refine ⟨rfl, ?_, rfl, rfl, rfl⟩
  cases p
  rfl

/-- C8: every batch the batcher emits is non-empty —
`filter(batch => batch.length > 0)` discards empty windows — and a window
sequence with no submissions at all emits nothing. -/
theorem c8_theorem (T : Nat) (subs : List (Nat × Nat)) (b : List Nat)
    (hb : b ∈ emittedBatches T subs) :
    0 < b.length ∧ emittedBatches T [] = [] := by
  constructor
  · have := (List.mem_filter.mp hb).2
    simpa using this
  · rfl

/-- C8 (witness): the single submission at time 0 yields the non-empty
batch `[7]`, and the empty submission sequence yields no batches. -/
theorem c8_witness :
    0 < ([7] : List Nat).length ∧ emittedBatches 1000 [] = [] :=
  c8_theorem 1000 [(0, 7)] [7] (by decide)

/-- C9: once a stream-level error has reached `catchError(err => EMPTY)`,
the subscription is gone: for any further events that do not include an
external re-`mount`, no batch is ever added and the pipeline never returns
to the subscribed state — there is no automatic recovery or restart. -/
theorem c9_theorem (st : ProcState) (evs : List PEvent)
    (h : PEvent.mount ∉ evs) :
    (runEvents (step st PEvent.fatal) evs).batches = st.batches ∧
    (runEvents (step st PEvent.fatal) evs).subscribed = false := by
  have hsub : (step st PEvent.fatal).subscribed = false := by
    by_cases hs : st.subscribed <;> simp [step, hs]
  have hbat : (step st PEvent.fatal).batches = st.batches := by
    by_cases hs : st.subscribed <;> simp [step, hs]
  have := runEvents_dead_of_unsubscribed evs (step st PEvent.fatal) hsub h
  exact ⟨hbat ▸ this.1, this.2⟩

/-- C9 (witness): after a fatal stream error on a mounted pipeline with one
buffered submission, later submissions and flushes add no batch and the
pipeline stays unsubscribed. -/
theorem c9_witness :
    (runEvents (step (runEvents initProc [PEvent.mount, PEvent.submit 1]) PEvent.fatal)
        [PEvent.submit 2, PEvent.flush]).batches
      = (runEvents initProc [PEvent.mount, PEvent.submit 1]).batches ∧
    (runEvents (step (runEvents initProc [PEvent.mount, PEvent.submit 1]) PEvent.fatal)
        [PEvent.submit 2, PEvent.flush]).subscribed = false :=
  c9_theorem (runEvents initProc [PEvent.mount, PEvent.submit 1])
    [PEvent.submit 2, PEvent.flush] (by decide)

/-- C10: a payload submitted before `mount` is silently dropped: the caller
gets no error, and the whole subsequent behaviour of the processor (for any
later events, including a later `mount`) is exactly as if the submission had
never happened — the `Subject` neither buffers nor replays. -/
theorem c10_theorem (p : Nat) (evs : List PEvent) :
    submitReport initProc p = none ∧
    runEvents initProc (PEvent.submit p :: evs) = runEvents initProc evs := by
  constructor
  · rfl
  · have h : step initProc (PEvent.submit p) = initProc := by
      simp [step, initProc]
    show runEvents (step initProc (PEvent.submit p)) evs = runEvents initProc evs
    rw [h]

end BaileysProc
